import Mathlib

/-!
ifpng: PNG to device-independent bitmap plugin (`extractor.c`).

A shallow embedding of `extractor.c` and a verification of its specification.

* Machine integers are `Nat`/`Int` with explicit reduction: `int` and `LONG`
  wrap modulo `2^32` around zero (`int32`), `DWORD` is reduced modulo `2^32`,
  and `size_t` is reduced modulo `2^bits`, where `bits` is the width of
  `size_t` on the target (32 or 64 for the plugin's Windows ABIs; kept as a
  parameter).
* The PNG decoding library, the C allocator and the host allocator are
  external collaborators.  Everything they decide on one call (whether a
  creation or an allocation succeeds, what the header chunk reports, where
  the library takes its error jump, the decoded samples) is gathered in an
  explicit record that the embedded functions take as an argument.
* Acquisitions and releases are recorded in an event trace.
-/

namespace Ifpng

/-! ## Bytes and machine integers -/

/-- One octet (`uint8_t`). -/
abbrev Byte := Fin 256

/-- Value of an octet read through a `char` lvalue: `char` is either signed
(two's complement) or unsigned, depending on the compiler. -/
def toChar (char_signed : Bool) (b : Byte) : Int :=
  if char_signed && decide (128 ≤ b.val) then (b.val : Int) - 256 else (b.val : Int)

/-- Conversion to the 32-bit `int` (and `LONG`): wrap-around modulo `2^32`. -/
def int32 (x : Int) : Int := (x + 2 ^ 31) % 2 ^ 32 - 2 ^ 31

/-- Conversion to `size_t`, an unsigned type of `bits` bits. -/
def size_t (bits : Nat) (x : Int) : Nat := (x % (2 : Int) ^ bits).toNat

/-- Conversion to the 32-bit unsigned `DWORD`. -/
def DWORD (x : Int) : Nat := (x % 2 ^ 32).toNat

/-! ## The in-memory reader (`extractor.c`, lines 25-39) -/

/-- The `data_pointer` record: the caller's buffer, its declared size and
the read cursor. -/
structure data_pointer where
  buf : List Byte
  size : Nat
  cur : Nat
deriving DecidableEq, Repr

/-- The bytes `memcpy` reads from `buf + off`, `len` of them; `none` when the
source range is not inside the buffer (the behaviour is then undefined). -/
def memcpy_src (buf : List Byte) (off len : Nat) : Option (List Byte) :=
  if off + len ≤ buf.length then some ((buf.drop off).take len) else none

/-- What one call of `PNG_read_data` does. -/
structure ReadOutcome where
  /-- The byte count handed to `memcpy`. -/
  length : Nat
  /-- The bytes copied to the library's buffer. -/
  data : Option (List Byte)
  /-- The reader state after the call. -/
  d : data_pointer
deriving DecidableEq, Repr

/-- The read callback `PNG_read_data`: `d->cur + length` and `d->size - d->cur`
are `size_t` expressions. -/
def PNG_read_data (bits : Nat) (d : data_pointer) (length : Nat) : ReadOutcome :=
  let length :=
    if size_t bits ((d.cur : Int) + length) > d.size then
      size_t bits ((d.size : Int) - d.cur)
    else length
  { length := length
    data := memcpy_src d.buf d.cur length
    d := { d with cur := size_t bits ((d.cur : Int) + length) } }

/-- The reader state both `getBMPFromPNG` (lines 59-62) and
`GetPictureInfoEx` (lines 188-191) start the library with. -/
def reader_init (buf : List Byte) (size : Nat) : data_pointer :=
  { buf := buf, size := size, cur := 0 }

/-- The reader state after the library has issued the read requests `reqs`,
in order; the library reaches the reader through the callback only. -/
def reader_run (bits : Nat) (d : data_pointer) (reqs : List Nat) : data_pointer :=
  reqs.foldl (fun s n => (PNG_read_data bits s n).d) d

/-! ## Format sniffing (`extractor.c`, lines 162-171) -/

/-- The local array `const char header[] = {0x89, 'P', 'N', 'G'}`. -/
def header (char_signed : Bool) : List Int :=
  [toChar char_signed 0x89, 80, 78, 71]

/-- The `for` loop of `IsSupportedEx` from index `i` on, with `k` iterations
left before `i` reaches `sizeof(header)`.  `none` is a read past the end of
the caller's buffer. -/
def IsSupportedEx_loop (char_signed : Bool) (data : List Byte) : Nat → Nat → Option Bool
  | 0, _ => some true
  | k + 1, i =>
    match (header char_signed).get? i with
    | none => some true
    | some h =>
      if h = 0 then IsSupportedEx_loop char_signed data k (i + 1)
      else
        match data.get? i with
        | none => none
        | some b =>
          if toChar char_signed b ≠ h then some false
          else IsSupportedEx_loop char_signed data k (i + 1)

/-- The format sniffer `IsSupportedEx`. -/
def IsSupportedEx (char_signed : Bool) (data : List Byte) : Option Bool :=
  IsSupportedEx_loop char_signed data (header char_signed).length 0

/-! ## The decoding library (external collaborator)

`extractor.c` drives the PNG decoding library through its public interface.
The constants are those of the library's header.  The sample
transformations are the library's, for every bit depth of the format (1, 2,
4, 8 and 16 bits per sample); `extractor.c` never asks for the bit depth and
never requests a reduction of 16-bit samples. -/

/-- Colour type code of a grayscale image. -/
def PNG_COLOR_TYPE_GRAY : Nat := 0

/-- Colour type code of an RGB image. -/
def PNG_COLOR_TYPE_RGB : Nat := 2

/-- Colour type code of a palette-indexed image. -/
def PNG_COLOR_TYPE_PALETTE : Nat := 3

/-- Colour type code of a grayscale image with an alpha channel. -/
def PNG_COLOR_TYPE_GRAY_ALPHA : Nat := 4

/-- Colour type code of an RGB image with an alpha channel. -/
def PNG_COLOR_TYPE_RGB_ALPHA : Nat := 6

/-- Where `png_set_filler` puts the filler. -/
inductive FillerLoc
  | PNG_FILLER_BEFORE
  | PNG_FILLER_AFTER
deriving DecidableEq, Repr

/-- The transform requests `getBMPFromPNG` can make of the library; the
filler is the `png_uint_32` argument of `png_set_filler`. -/
inductive Transform
  | png_set_palette_to_rgb
  | png_set_tRNS_to_alpha
  | png_set_gray_to_rgb
  | png_set_expand
  | png_set_bgr
  | png_set_filler (filler : Nat) (loc : FillerLoc)
deriving DecidableEq, Repr

/-- One pixel of a decoded row, as the library holds it between transforms.
A sample is a value below `2^depth`, for the bit depth of the row. -/
inductive Pixel
  | index (i : Nat)
  | gray (g : Nat)
  | gray_alpha (g a : Nat)
  | rgb (r g b : Nat)
  | rgba (r g b a : Nat)
deriving DecidableEq, Repr

/-- The transparency chunk of an image: per-entry alpha for a palette image,
a transparent key (16-bit values) for a grayscale or an RGB image. -/
inductive Transparency
  | palette (alpha : List Byte)
  | gray (key : Nat)
  | rgb (r g b : Nat)
deriving DecidableEq, Repr

/-- The library calls during which the library can take its error jump. -/
inductive Stage
  | png_read_info
  | png_read_update_info
  | png_read_image
  | png_read_end
deriving DecidableEq, Repr

/-- Everything the collaborators of `getBMPFromPNG` decide on one call.  The
input bytes reach the library through `PNG_read_data` only; what the library
makes of them (the header values, the decoded samples, an error jump) is
recorded here, together with the answers of the allocator. -/
structure Session where
  /-- Whether `png_create_read_struct` returns a context. -/
  create_read_struct : Bool
  /-- Whether the first `png_create_info_struct` returns a record. -/
  create_info_struct : Bool
  /-- Whether the second `png_create_info_struct` returns a record. -/
  create_end_info : Bool
  /-- The library call, if any, that ends in the library's error jump. -/
  error_at : Option Stage
  /-- The `png_uint_32` that `png_get_image_width` returns. -/
  width : Nat
  /-- The `png_uint_32` that `png_get_image_height` returns. -/
  height : Nat
  /-- The `png_byte` that `png_get_color_type` returns. -/
  color_type : Nat
  /-- The bit depth of the header chunk: bits per sample, or per palette
  index.  The library keeps it; `extractor.c` never reads it. -/
  bit_depth : Nat
  /-- The palette chunk. -/
  palette : List (Byte × Byte × Byte)
  /-- The transparency chunk, when the image has one. -/
  trns : Option Transparency
  /-- The decoded sample of row `y` (top to bottom), column `x`. -/
  pixel : Nat → Nat → Pixel
  /-- Whether `malloc` returns the raster. -/
  malloc_bitmap_data : Bool
  /-- Whether `malloc` returns the row-pointer table. -/
  malloc_row_pointers : Bool

/-- The test `png_get_valid(png_ptr, info_ptr, PNG_INFO_tRNS)`: the library
records a palette transparency chunk only when it has at least one entry. -/
def png_get_valid_tRNS (s : Session) : Bool :=
  match s.trns with
  | none => false
  | some (.palette alpha) => decide (0 < alpha.length)
  | some _ => true

/-- Which requests switch expansion on: `png_set_palette_to_rgb`,
`png_set_tRNS_to_alpha` and `png_set_expand` all set the library's expansion
flags. -/
def expand_requested (plan : List Transform) : Bool :=
  plan.any fun t =>
    decide (t = .png_set_palette_to_rgb) || decide (t = .png_set_tRNS_to_alpha) ||
      decide (t = .png_set_expand)

/-- The filler in force: the one of the last `png_set_filler` request. -/
def filler_requested (plan : List Transform) : Option (Nat × FillerLoc) :=
  plan.foldl (fun acc t =>
    match t with
    | .png_set_filler f loc => some (f, loc)
    | _ => acc) none

/-- The bit depth of a row after expansion: expansion brings samples and
palette indices of fewer than 8 bits to 8 bits; nothing that `extractor.c`
requests changes a depth of 8 or 16. -/
def row_depth (plan : List Transform) (bit_depth : Nat) : Nat :=
  if expand_requested plan && decide (bit_depth < 8) then 8 else bit_depth

/-- Expansion of a gray sample of 1, 2 or 4 bits to 8 bits, by repeating
its bits; a sample of 8 or 16 bits is kept. -/
def expand_sample (bit_depth v : Nat) : Nat :=
  if bit_depth = 1 then (v % 2) * 0xff
  else if bit_depth = 2 then (v % 4) * 0x55
  else if bit_depth = 4 then (v % 16) * 0x11
  else v

/-- The comparison of a sample with a transparent key: on all 16 bits for
16-bit samples, on the low byte otherwise. -/
def same_sample (bit_depth a b : Nat) : Bool :=
  if bit_depth = 16 then decide (a % 65536 = b % 65536) else decide (a % 256 = b % 256)

/-- The fully visible alpha sample of a row. -/
def max_sample (bit_depth : Nat) : Nat :=
  if bit_depth = 16 then 0xffff else 0xff

/-- Expansion: a palette index becomes its palette entry (8-bit samples),
with the alpha of the transparency chunk when there is one (entries past its
end are fully visible); a gray sample of fewer than 8 bits is brought to 8
bits; a transparent key becomes an alpha channel. -/
def do_expand (bit_depth : Nat) (palette : List (Byte × Byte × Byte))
    (trns : Option Transparency) : Pixel → Pixel
  | .index i =>
    let c := palette.getD i (0, 0, 0)
    match trns with
    | some (.palette alpha) =>
      if 0 < alpha.length then .rgba c.1.val c.2.1.val c.2.2.val (alpha.getD i 255).val
      else .rgb c.1.val c.2.1.val c.2.2.val
    | _ => .rgb c.1.val c.2.1.val c.2.2.val
  | .gray g =>
    match trns with
    | some (.gray key) =>
      .gray_alpha (expand_sample bit_depth g)
        (if same_sample bit_depth (expand_sample bit_depth g) (expand_sample bit_depth key)
          then 0 else max_sample bit_depth)
    | _ => .gray (expand_sample bit_depth g)
  | .rgb r g b =>
    match trns with
    | some (.rgb kr kg kb) =>
      .rgba r g b
        (if same_sample bit_depth r kr && same_sample bit_depth g kg &&
            same_sample bit_depth b kb
          then 0 else max_sample bit_depth)
    | _ => .rgb r g b
  | p => p

/-- Gray to RGB, for rows of at least 8 bits per sample: the gray sample is
repeated three times, alpha is kept. -/
def do_gray_to_rgb (depth : Nat) (p : Pixel) : Pixel :=
  if 8 ≤ depth then
    match p with
    | .gray g => .rgb g g g
    | .gray_alpha g a => .rgba g g g a
    | p => p
  else p

/-- Channel swap, for rows of 8 or 16 bits per sample: the first and the
third colour sample change places. -/
def do_bgr (depth : Nat) (p : Pixel) : Pixel :=
  if depth = 8 ∨ depth = 16 then
    match p with
    | .rgb r g b => .rgb b g r
    | .rgba r g b a => .rgba b g r a
    | p => p
  else p

/-- The samples of a pixel, in row order. -/
def Pixel.channels : Pixel → List Nat
  | .index i => [i]
  | .gray g => [g]
  | .gray_alpha g a => [g, a]
  | .rgb r g b => [r, g, b]
  | .rgba r g b a => [r, g, b, a]

/-- The sample the filler adds: the library keeps the low 16 bits of the
requested filler and adds its low byte to 8-bit rows, its two bytes to
16-bit rows. -/
def filler_sample (depth filler : Nat) : Nat :=
  if depth = 16 then filler % 65536 else filler % 256

/-- Alpha fill, for rows of 8 or 16 bits per sample: the filler sample is
added to the pixels of a row that has no alpha channel; a row with an alpha
channel is left as it is. -/
def do_read_filler (depth filler : Nat) (loc : FillerLoc) (p : Pixel) : List Nat :=
  if depth = 8 ∨ depth = 16 then
    match p with
    | .gray g =>
      match loc with
      | .PNG_FILLER_AFTER => [g, filler_sample depth filler]
      | .PNG_FILLER_BEFORE => [filler_sample depth filler, g]
    | .rgb r g b =>
      match loc with
      | .PNG_FILLER_AFTER => [r, g, b, filler_sample depth filler]
      | .PNG_FILLER_BEFORE => [filler_sample depth filler, r, g, b]
    | p => p.channels
  else p.channels

/-- The library's row transformation of one pixel under the requests
`plan`, in the library's fixed order: expansion, gray to RGB, channel swap,
filler.  The result is the samples of the pixel, of `row_depth` bits each. -/
def png_do_read_transformations (plan : List Transform)
    (palette : List (Byte × Byte × Byte)) (trns : Option Transparency) (bit_depth : Nat)
    (p : Pixel) : List Nat :=
  let depth := row_depth plan bit_depth
  let p := if expand_requested plan then do_expand bit_depth palette trns p else p
  let p := if plan.contains .png_set_gray_to_rgb then do_gray_to_rgb depth p else p
  let p := if plan.contains .png_set_bgr then do_bgr depth p else p
  match filler_requested plan with
  | some (f, loc) => do_read_filler depth f loc p
  | none => p.channels

/-- The bytes of a sample of a row of whole-byte samples: one byte for a
depth of 8, the high byte and then the low byte for a depth of 16. -/
def sample_bytes (depth v : Nat) : List Byte :=
  if depth = 16 then [Fin.ofNat (v / 256), Fin.ofNat v] else [Fin.ofNat v]

/-- The bits of a sample of fewer than 8 bits, the highest first. -/
def sample_bits (depth v : Nat) : List Bool :=
  (List.range depth).reverse.map fun k => v.testBit k

/-- The byte made of up to 8 bits, the highest first, filled up with zero
bits. -/
def byte_of_bits (bs : List Bool) : Byte :=
  Fin.ofNat ((bs ++ List.replicate (8 - bs.length) false).foldl
    (fun acc b => 2 * acc + (if b then 1 else 0)) 0)

/-- The bytes of a row of packed samples, 8 bits to a byte, with `k`
bounding the number of bytes. -/
def pack_bits : Nat → List Bool → List Byte
  | 0, _ => []
  | k + 1, bs =>
    if bs.isEmpty then [] else byte_of_bits (bs.take 8) :: pack_bits k (bs.drop 8)

/-- The bytes of one transformed pixel in a row of whole-byte samples. -/
def transformed_pixel (s : Session) (plan : List Transform) (p : Pixel) : List Byte :=
  (png_do_read_transformations plan s.palette s.trns s.bit_depth p).flatMap
    (sample_bytes (row_depth plan s.bit_depth))

/-- The transformed bytes of decoded row `y`: the bytes of its pixels one
after the other, or, when the row still has fewer than 8 bits per sample,
its samples packed 8 bits to a byte. -/
def transformed_row (s : Session) (plan : List Transform) (y : Nat) : List Byte :=
  if row_depth plan s.bit_depth < 8 then
    pack_bits (s.width * row_depth plan s.bit_depth + 1)
      ((List.range s.width).flatMap fun x =>
        (png_do_read_transformations plan s.palette s.trns s.bit_depth (s.pixel y x)).flatMap
          (sample_bits (row_depth plan s.bit_depth)))
  else
    (List.range s.width).flatMap fun x => transformed_pixel s plan (s.pixel y x)

/-- A store of `bs` at byte offset `off` of an allocation; `none` when the
allocation is already lost or the store is not inside it. -/
def store (mem : Option (List Byte)) (off : Int) (bs : List Byte) : Option (List Byte) :=
  match mem with
  | none => none
  | some m =>
    if 0 ≤ off ∧ off.toNat + bs.length ≤ m.length then
      some (m.take off.toNat ++ bs ++ m.drop (off.toNat + bs.length))
    else none

/-- The library's `png_read_image`: decoded row `y` is stored where
`row_pointers[y]` points, for every row of the image. -/
def png_read_image (s : Session) (plan : List Transform) (row_pointers : List Int)
    (mem : List Byte) : Option (List Byte) :=
  (List.range s.height).foldl (fun m y =>
    match row_pointers.get? y with
    | none => none
    | some off => store m off (transformed_row s plan y)) (some mem)

/-! ## Bitmap records (the host platform's headers) -/

/-- The `BITMAPFILEHEADER` record. -/
structure BITMAPFILEHEADER where
  bfType : Nat
  bfSize : Nat
  bfReserved1 : Nat
  bfReserved2 : Nat
  bfOffBits : Nat
deriving DecidableEq, Repr

/-- The `BITMAPINFOHEADER` record. -/
structure BITMAPINFOHEADER where
  biSize : Nat
  biWidth : Int
  biHeight : Int
  biPlanes : Nat
  biBitCount : Nat
  biCompression : Nat
  biSizeImage : Nat
  biXPelsPerMeter : Int
  biYPelsPerMeter : Int
  biClrUsed : Nat
  biClrImportant : Nat
deriving DecidableEq, Repr

/-- The value of `sizeof(BITMAPFILEHEADER)`. -/
def sizeof_BITMAPFILEHEADER : Nat := 14

/-- The value of `sizeof(BITMAPINFOHEADER)`. -/
def sizeof_BITMAPINFOHEADER : Nat := 40

/-- The value of `sizeof(BITMAPINFO)`: the info header and one colour entry. -/
def sizeof_BITMAPINFO : Nat := 44

/-! ## The decoder adapter `getBMPFromPNG` (`extractor.c`, lines 41-160) -/

/-- What `getBMPFromPNG` holds during a call. -/
inductive Resource
  | read_struct
  | info_struct
  | end_info
  | bitmap_data
  | row_pointers
deriving DecidableEq, Repr

/-- An acquisition or a release of a resource. -/
inductive Event
  | acquire (r : Resource)
  | release (r : Resource)
deriving DecidableEq, Repr

/-- The resources a trace has acquired and not released. -/
def live (t : List Event) : List Resource :=
  t.foldl (fun acc e =>
    match e with
    | .acquire r => acc ++ [r]
    | .release r => acc.erase r) []

/-- The call `png_destroy_read_struct(&png_ptr, &info_ptr, &end_info)`. -/
def png_destroy_read_struct : List Event :=
  [.release .read_struct, .release .info_struct, .release .end_info]

/-- What one call of `getBMPFromPNG` does. -/
structure BmpOutcome where
  /-- The returned `int`. -/
  ret : Int
  /-- The caller's file header record, when the call has written it. -/
  bitmap_file_header : Option BITMAPFILEHEADER
  /-- The caller's info header record, when the call has written it. -/
  bitmap_info_header : Option BITMAPINFOHEADER
  /-- The bytes behind `*data`, when the call has assigned it and every row
  store was inside the raster. -/
  data : Option (List Byte)
  /-- The transform requests made, in order. -/
  plan : List Transform
  /-- The row-pointer table, as byte offsets from `bitmap_data`. -/
  row_pointers : List Int
  /-- The acquisitions and releases, in order. -/
  trace : List Event

/-- A `return -1`: nothing is written to the caller's records. -/
def BmpOutcome.fail (plan : List Transform) (row_pointers : List Int) (trace : List Event) :
    BmpOutcome :=
  { ret := -1, bitmap_file_header := none, bitmap_info_header := none, data := none,
    plan := plan, row_pointers := row_pointers, trace := trace }

/-- Lines 72-81: the palette branch; it yields the requests made and the new
value of `color_type`. -/
def palette_branch (s : Session) : List Transform × Nat :=
  if s.color_type = PNG_COLOR_TYPE_PALETTE then
    if png_get_valid_tRNS s then
      ([.png_set_palette_to_rgb, .png_set_tRNS_to_alpha], PNG_COLOR_TYPE_RGB_ALPHA)
    else
      ([.png_set_palette_to_rgb], PNG_COLOR_TYPE_RGB)
  else ([], s.color_type)

/-- Lines 83-104: the `switch` on `color_type`; `none` is the `default` case. -/
def color_type_switch (color_type : Nat) : Option (List Transform) :=
  if color_type = PNG_COLOR_TYPE_GRAY_ALPHA then
    some [.png_set_gray_to_rgb, .png_set_filler 0xff .PNG_FILLER_AFTER]
  else if color_type = PNG_COLOR_TYPE_GRAY then
    some [.png_set_expand, .png_set_gray_to_rgb, .png_set_filler 0xff .PNG_FILLER_AFTER]
  else if color_type = PNG_COLOR_TYPE_RGB_ALPHA then
    some [.png_set_bgr]
  else if color_type = PNG_COLOR_TYPE_RGB then
    some [.png_set_bgr, .png_set_filler 0xff .PNG_FILLER_AFTER]
  else none

/-- Lines 123-126: the `for` loop that fills the row-pointer table, from row
`y` on with `k` iterations left; `height - y - 1` and its product with
`bit_length` are `int` expressions. -/
def fill_row_pointers_loop (height bit_length : Int) : Nat → Nat → List Int
  | 0, _ => []
  | k + 1, y =>
    int32 (int32 (int32 (height - (y : Int)) - 1) * bit_length) ::
      fill_row_pointers_loop height bit_length k (y + 1)

/-- Lines 123-126: the row-pointer table, one entry for each `y` with
`0 <= y < height`. -/
def fill_row_pointers (height bit_length : Int) : List Int :=
  fill_row_pointers_loop height bit_length height.toNat 0

/-- The `size_t` expression `sizeof(uint8_t) * bit_length * height`. -/
def raster_bytes (bits : Nat) (bit_length height : Int) : Nat :=
  size_t bits ((size_t bits (1 * (size_t bits bit_length : Int)) : Int) *
    (size_t bits height : Int))

/-- The decoder adapter `getBMPFromPNG`. -/
def getBMPFromPNG (bits : Nat) (s : Session) : BmpOutcome :=
  if !s.create_read_struct then .fail [] [] [] else
  let t := [Event.acquire .read_struct]
  if !s.create_info_struct then .fail [] [] t else
  let t := t ++ [.acquire .info_struct]
  if !s.create_end_info then .fail [] [] t else
  let t := t ++ [.acquire .end_info]
  if s.error_at = some .png_read_info then .fail [] [] (t ++ png_destroy_read_struct) else
  let width := int32 s.width
  let height := int32 s.height
  let pb := palette_branch s
  match color_type_switch pb.2 with
  | none => .fail pb.1 [] t
  | some requests =>
  let plan := pb.1 ++ requests
  if s.error_at = some .png_read_update_info then
    .fail plan [] (t ++ png_destroy_read_struct) else
  let bit_width := int32 (width * 4)
  let bit_length := bit_width
  if !s.malloc_bitmap_data then .fail plan [] (t ++ png_destroy_read_struct) else
  let t := t ++ [.acquire .bitmap_data]
  let bitmap_data := List.replicate (raster_bytes bits bit_length height) (0 : Byte)
  if !s.malloc_row_pointers then .fail plan [] (t ++ png_destroy_read_struct) else
  let t := t ++ [.acquire .row_pointers]
  let row_pointers := fill_row_pointers height bit_length
  if s.error_at = some .png_read_image then
    .fail plan row_pointers (t ++ png_destroy_read_struct) else
  if s.error_at = some .png_read_end then
    .fail plan row_pointers (t ++ png_destroy_read_struct) else
  let t := t ++ [.release .row_pointers] ++ png_destroy_read_struct
  let bfSize := DWORD (size_t bits
    ((sizeof_BITMAPFILEHEADER : Int) + sizeof_BITMAPINFOHEADER +
      raster_bytes bits bit_length height))
  { ret := 0
    bitmap_file_header := some
      { bfType := 77 * 256 + 66
        bfSize := bfSize
        bfOffBits := DWORD (size_t bits
          ((sizeof_BITMAPFILEHEADER : Int) + sizeof_BITMAPINFOHEADER))
        bfReserved1 := 0
        bfReserved2 := 0 }
    bitmap_info_header := some
      { biSize := 40
        biWidth := width
        biHeight := height
        biPlanes := 1
        biBitCount := 32
        biCompression := 0
        biSizeImage := bfSize
        biXPelsPerMeter := 0
        biYPelsPerMeter := 0
        biClrUsed := 0
        biClrImportant := 0 }
    data := png_read_image s plan row_pointers bitmap_data
    plan := plan
    row_pointers := row_pointers
    trace := t }

/-! ## Pixel extraction `GetPictureEx` (`extractor.c`, lines 215-270) -/

/-- The status codes `GetPictureEx` returns.  Their declaration is in
`extractor.h`, which is not among the sources; they are kept symbolic. -/
inductive SPI
  | SPI_ALL_RIGHT
  | SPI_ABORT
  | SPI_NO_MEMORY
  | SPI_MEMORY_ERROR
deriving DecidableEq, Repr

/-- The two output blocks of the host allocator. -/
inductive HostBlock
  | bitmap_info
  | bitmap_data
deriving DecidableEq, Repr

/-- What `GetPictureEx` does to the output blocks and to the raster. -/
inductive HostEvent
  | LocalAlloc (b : HostBlock) (bytes : Nat)
  | LocalFree (b : HostBlock)
  | LocalLock (b : HostBlock)
  | LocalUnlock (b : HostBlock)
  | write (b : HostBlock)
  | free_data_u8
deriving DecidableEq, Repr

/-- Everything the host decides on one call of `GetPictureEx`. -/
structure Host where
  /-- The progress callback, when one is passed: the answer of its `k`-th call. -/
  progress_callback : Option (Nat → Bool)
  /-- Whether `LocalAlloc` returns the info block. -/
  alloc_bitmap_info : Bool
  /-- Whether `LocalAlloc` returns the pixel-data block. -/
  alloc_bitmap_data : Bool
  /-- Whether `LocalLock` of the info block returns an address. -/
  lock_bitmap_info : Bool
  /-- Whether `LocalLock` of the pixel-data block returns an address. -/
  lock_bitmap_data : Bool

/-- The host blocks a trace has obtained and not freed. -/
def held (t : List HostEvent) : List HostBlock :=
  t.foldl (fun acc e =>
    match e with
    | .LocalAlloc b _ => acc ++ [b]
    | .LocalFree b => acc.erase b
    | _ => acc) []

/-- The blocks a trace has written into. -/
def written (t : List HostEvent) : List HostBlock :=
  t.filterMap fun e =>
    match e with
    | .write b => some b
    | _ => none

/-- What one call of `GetPictureEx` does. -/
structure PictureOutcome where
  /-- The returned status. -/
  status : SPI
  /-- The allocator calls and the writes, in order. -/
  trace : List HostEvent
  /-- The header written into the info block. -/
  bmiHeader : Option BITMAPINFOHEADER
  /-- The bytes written into the pixel-data block. -/
  pixels : Option (List Byte)
  /-- The decode, when the call got as far as decoding. -/
  decode : Option BmpOutcome

/-- The test `progress_callback != NULL && progress_callback(1, 1, user_data)`
at the `k`-th checkpoint. -/
def progress_abort (h : Host) (k : Nat) : Bool :=
  match h.progress_callback with
  | none => false
  | some f => f k

/-- The successful allocations of lines 230-232. -/
def host_allocs (h : Host) (bytes : Nat) : List HostEvent :=
  (if h.alloc_bitmap_info then [HostEvent.LocalAlloc .bitmap_info sizeof_BITMAPINFO] else []) ++
  (if h.alloc_bitmap_data then [HostEvent.LocalAlloc .bitmap_data bytes] else [])

/-- The successful locks of lines 240-241. -/
def host_locks (h : Host) : List HostEvent :=
  (if h.lock_bitmap_info then [HostEvent.LocalLock .bitmap_info] else []) ++
  (if h.lock_bitmap_data then [HostEvent.LocalLock .bitmap_data] else [])

/-- The pixel extraction `GetPictureEx`.  The last case of the `match` is
never reached: a zero return of `getBMPFromPNG` always comes with both
records written. -/
def GetPictureEx (bits : Nat) (h : Host) (s : Session) : PictureOutcome :=
  if progress_abort h 0 then
    { status := .SPI_ABORT, trace := [], bmiHeader := none, pixels := none, decode := none }
  else
  let r := getBMPFromPNG bits s
  if r.ret ≠ 0 then
    { status := .SPI_MEMORY_ERROR, trace := [], bmiHeader := none, pixels := none,
      decode := some r }
  else
  match r.bitmap_file_header, r.bitmap_info_header with
  | some bitmap_file_header, some bitmap_info_header =>
    let bytes := DWORD ((bitmap_file_header.bfSize : Int) - bitmap_file_header.bfOffBits)
    let t := host_allocs h bytes
    if !h.alloc_bitmap_info || !h.alloc_bitmap_data then
      let t := t ++ (if h.alloc_bitmap_info then [HostEvent.LocalFree .bitmap_info] else [])
      let t := t ++ (if h.alloc_bitmap_data then [HostEvent.LocalFree .bitmap_data] else [])
      { status := .SPI_NO_MEMORY, trace := t, bmiHeader := none, pixels := none,
        decode := some r }
    else
    let t := t ++ host_locks h
    if !h.lock_bitmap_info || !h.lock_bitmap_data then
      { status := .SPI_MEMORY_ERROR
        trace := t ++ [.LocalFree .bitmap_info, .LocalFree .bitmap_data]
        bmiHeader := none, pixels := none, decode := some r }
    else
    let t := t ++ [.write .bitmap_info, .write .bitmap_data, .LocalUnlock .bitmap_info,
      .LocalUnlock .bitmap_data, .free_data_u8]
    { status := if progress_abort h 1 then .SPI_ABORT else .SPI_ALL_RIGHT
      trace := t
      bmiHeader := some
        { biSize := sizeof_BITMAPINFOHEADER
          biWidth := bitmap_info_header.biWidth
          biHeight := bitmap_info_header.biHeight
          biPlanes := 1
          biBitCount := 32
          biCompression := 0
          biSizeImage := 0
          biXPelsPerMeter := 0
          biYPelsPerMeter := 0
          biClrUsed := 0
          biClrImportant := 0 }
      pixels := r.data.bind fun m => memcpy_src m 0 bytes
      decode := some r }
  | _, _ =>
    { status := .SPI_MEMORY_ERROR, trace := [], bmiHeader := none, pixels := none,
      decode := some r }

/-! ## Concrete inputs -/

/-- A reader state on a 16-byte buffer, with the cursor at 8. -/
def wrap_reader : data_pointer :=
  { buf := [0x89, 0x50, 0x4E, 0x47, 0x0D, 0x0A, 0x1A, 0x0A, 0, 0, 0, 13, 0x49, 0x48, 0x44, 0x52]
    size := 16
    cur := 8 }

/-- The 2x2 RGB image of the specification, with 8-bit samples: red and
green in the top row, blue and white in the bottom row; every creation and
allocation succeeds. -/
def rgb_2x2 : Session :=
  { create_read_struct := true
    create_info_struct := true
    create_end_info := true
    error_at := none
    width := 2
    height := 2
    color_type := PNG_COLOR_TYPE_RGB
    bit_depth := 8
    palette := []
    trns := none
    pixel := fun y x =>
      match y, x with
      | 0, 0 => .rgb 255 0 0
      | 0, _ => .rgb 0 255 0
      | _, 0 => .rgb 0 0 255
      | _, _ => .rgb 255 255 255
    malloc_bitmap_data := true
    malloc_row_pointers := true }

/-- An RGB image of 32768 x 32768 pixels, whose raster has `2^32` bytes. -/
def rgb_32768 : Session :=
  { rgb_2x2 with width := 32768, height := 32768 }

/-- An RGB image of 1000000 x 538 pixels, whose raster has more than `2^31`
bytes. -/
def rgb_1000000x538 : Session :=
  { rgb_2x2 with width := 1000000, height := 538 }

/-- A 1x1 image of colour type gray+alpha, with 8-bit samples. -/
def gray_alpha_1x1 : Session :=
  { rgb_2x2 with
    width := 1
    height := 1
    color_type := PNG_COLOR_TYPE_GRAY_ALPHA
    pixel := fun _ _ => .gray_alpha 100 50 }

/-- The 2x2 image with its image data cut short: the library takes its error
jump inside `png_read_image`. -/
def rgb_2x2_truncated : Session :=
  { rgb_2x2 with error_at := some .png_read_image }

/-- A host that passes no progress callback and whose pixel-data allocation
fails. -/
def host_no_data_block : Host :=
  { progress_callback := none
    alloc_bitmap_info := true
    alloc_bitmap_data := false
    lock_bitmap_info := true
    lock_bitmap_data := true }

/-! ## Theorems: machine integers -/

/-- Conversion of a natural number to `size_t` is reduction modulo `2^bits`. -/
theorem size_t_natCast (bits n : Nat) : size_t bits (n : Int) = n % 2 ^ bits := by
  unfold size_t
  have h : ((n : Int) % (2 : Int) ^ bits) = ((n % 2 ^ bits : Nat) : Int) := by
    push_cast
    rfl
  rw [h, Int.toNat_ofNat]

/-- The value of a `size_t` conversion as an integer. -/
theorem size_t_cast (bits : Nat) (x : Int) :
    ((size_t bits x : Nat) : Int) = x % (2 : Int) ^ bits := by
  unfold size_t
  exact Int.toNat_of_nonneg (Int.emod_nonneg _ (by positivity))

/-- A `size_t` sum does not depend on whether its summand was reduced first. -/
theorem size_t_add_size_t (bits : Nat) (a b : Int) :
    size_t bits (a + (size_t bits b : Int)) = size_t bits (a + b) := by
  have h : (a + (size_t bits b : Int)) % (2 : Int) ^ bits = (a + b) % (2 : Int) ^ bits := by
    rw [size_t_cast, Int.add_emod, Int.emod_emod_of_dvd _ (dvd_refl _), ← Int.add_emod]
  unfold size_t at h ⊢
  rw [h]

/-! ## Theorems: the in-memory reader -/

/-- The callback does not change the declared size. -/
theorem PNG_read_data_size (bits : Nat) (d : data_pointer) (n : Nat) :
    (PNG_read_data bits d n).d.size = d.size := rfl

/-- After one call the cursor is at most the declared size. -/
theorem PNG_read_data_cur_le (bits : Nat) (d : data_pointer) (n : Nat) :
    (PNG_read_data bits d n).d.cur ≤ d.size := by
  unfold PNG_read_data
  by_cases h : size_t bits ((d.cur : Int) + n) > d.size
  · simp only [h, if_true]
    rw [size_t_add_size_t]
    have e : (d.cur : Int) + ((d.size : Int) - d.cur) = ((d.size : Nat) : Int) := by ring
    rw [e, size_t_natCast]
    exact Nat.mod_le _ _
  · simp only [h, if_false]
    exact Nat.le_of_not_gt h

/-- No sequence of requests changes the declared size. -/
theorem reader_run_size (bits : Nat) (reqs : List Nat) (d : data_pointer) :
    (reader_run bits d reqs).size = d.size := by
  induction reqs generalizing d with
  | nil => rfl
  | cons n rest ih =>
    show (reader_run bits (PNG_read_data bits d n).d rest).size = d.size
    rw [ih, PNG_read_data_size]

/-- The bound on the cursor is kept by every sequence of requests. -/
theorem reader_run_cur_le (bits : Nat) (reqs : List Nat) (d : data_pointer)
    (h : d.cur ≤ d.size) : (reader_run bits d reqs).cur ≤ d.size := by
  induction reqs generalizing d with
  | nil => exact h
  | cons n rest ih =>
    show (reader_run bits (PNG_read_data bits d n).d rest).cur ≤ d.size
    have := ih (PNG_read_data bits d n).d (PNG_read_data_cur_le bits d n)
    rwa [PNG_read_data_size] at this

/-- The condition on the sum cannot be dropped: whenever the `size_t` sum
`cur + n` wraps, the request is handed to `memcpy` whole, and it is larger
than what is left of the buffer. -/
theorem PNG_read_data_wrapped_sum (bits : Nat) (d : data_pointer) (n : Nat)
    (hcur : d.cur ≤ d.size) (hrep : d.size < 2 ^ bits) (hn : n < 2 ^ bits)
    (hsum : 2 ^ bits ≤ d.cur + n) :
    (PNG_read_data bits d n).length = n ∧ min n (d.size - d.cur) < n := by
  have hs : size_t bits ((d.cur : Int) + n) = d.cur + n - 2 ^ bits := by
    have : ((d.cur : Int) + n) = ((d.cur + n : Nat) : Int) := by push_cast; rfl
    rw [this, size_t_natCast, Nat.mod_eq_sub_mod hsum, Nat.mod_eq_of_lt (by omega)]
  unfold PNG_read_data
  simp only [hs]
  have h : ¬ d.cur + n - 2 ^ bits > d.size := by omega
  simp only [h, if_false]
  exact ⟨trivial, by omega⟩

/-- C10: after `PNG_read_data` the cursor is at most the declared size, for
every state before the call and every requested length, with the sum and the
difference reduced modulo the width of `size_t`; so every state reached from
the initial cursor 0 has `cur <= size`, and there the `size_t` difference
`size - cur` of the truncation branch is the exact difference (it does not
wrap below zero). -/
theorem PNG_read_data_cursor_invariant (bits : Nat) :
    (∀ (d : data_pointer) (n : Nat),
      (PNG_read_data bits d n).d.cur ≤ (PNG_read_data bits d n).d.size) ∧
    (∀ (buf : List Byte) (size : Nat) (reqs : List Nat),
      (reader_run bits (reader_init buf size) reqs).size = size ∧
      (reader_run bits (reader_init buf size) reqs).cur ≤ size ∧
      (size < 2 ^ bits →
        ((size_t bits ((size : Int) - (reader_run bits (reader_init buf size) reqs).cur) : Nat) :
            Int) = (size : Int) - (reader_run bits (reader_init buf size) reqs).cur)) := by
  refine ⟨fun d n => ?_, fun buf size reqs => ?_⟩
  · rw [PNG_read_data_size]
    exact PNG_read_data_cur_le bits d n
  · have hs := reader_run_size bits reqs (reader_init buf size)
    have hc := reader_run_cur_le bits reqs (reader_init buf size) (Nat.zero_le _)
    refine ⟨hs, hc, fun hlt => ?_⟩
    have hc2 : (reader_run bits (reader_init buf size) reqs).cur ≤ size := hc
    rw [size_t_cast]
    apply Int.emod_eq_of_lt
    · omega
    · have : ((2 : Int) ^ bits) = ((2 ^ bits : Nat) : Int) := by push_cast; rfl
      rw [this]
      omega

/-- Witness for C10: three requests against a 16-byte buffer, the last one
larger than what is left. -/
theorem PNG_read_data_cursor_invariant_witness :
    (16 : Nat) < 2 ^ 64 ∧
    (reader_run 64 (reader_init wrap_reader.buf 16) [8, 4, 100]).cur ≤ 16 ∧
    ((size_t 64 ((16 : Int) - (reader_run 64 (reader_init wrap_reader.buf 16) [8, 4, 100]).cur) :
      Nat) : Int) = (16 : Int) - (reader_run 64 (reader_init wrap_reader.buf 16) [8, 4, 100]).cur :=
  ⟨by decide, ((PNG_read_data_cursor_invariant 64).2 wrap_reader.buf 16 [8, 4, 100]).2.1,
    ((PNG_read_data_cursor_invariant 64).2 wrap_reader.buf 16 [8, 4, 100]).2.2 (by decide)⟩

/-! ## Theorems: format sniffing -/

/-- Reading through `char` loses nothing: distinct octets give distinct values. -/
theorem toChar_inj (cs : Bool) (a b : Byte) : toChar cs a = toChar cs b ↔ a = b := by
  constructor
  · intro h
    apply Fin.ext
    have ha := a.isLt
    have hb := b.isLt
    unfold toChar at h
    cases cs <;> simp only [Bool.false_and, Bool.true_and, Bool.false_eq_true, if_false,
      decide_eq_true_eq] at h <;> omega
  · rintro rfl
    rfl

/-- An octet below 128 reads as itself under either signedness. -/
theorem toChar_ascii (cs : Bool) (b : Byte) (hb : b.val < 128) : toChar cs b = (b.val : Int) := by
  unfold toChar
  cases cs <;> simp
  omega

/-- The four entries of `header` are the `char` values of the signature octets. -/
theorem header_eq (cs : Bool) :
    header cs = [toChar cs 0x89, toChar cs 80, toChar cs 78, toChar cs 71] := by
  unfold header
  rw [toChar_ascii cs 80 (by decide), toChar_ascii cs 78 (by decide), toChar_ascii cs 71 (by decide)]
  rfl

/-- A nonzero octet does not read as zero. -/
theorem toChar_ne_zero (cs : Bool) (b : Byte) (hb : b ≠ 0) : toChar cs b ≠ 0 := by
  have h0 : toChar cs 0 = 0 := by cases cs <;> rfl
  intro h
  rw [← h0, toChar_inj] at h
  exact hb h

/-- The answer of `IsSupportedEx` on a buffer of at least four bytes. -/
theorem IsSupportedEx_four (cs : Bool) (a b c d : Byte) (rest : List Byte) :
    IsSupportedEx cs (a :: b :: c :: d :: rest) =
      some (decide (a = 0x89 ∧ b = 80 ∧ c = 78 ∧ d = 71)) := by
  unfold IsSupportedEx
  rw [header_eq]
  simp only [List.length_cons, List.length_nil, IsSupportedEx_loop, header_eq, List.get?_cons_zero,
    List.get?_cons_succ, toChar_ne_zero cs 0x89 (by decide), toChar_ne_zero cs 80 (by decide),
    toChar_ne_zero cs 78 (by decide), toChar_ne_zero cs 71 (by decide), if_false, ne_eq,
    toChar_inj, ite_not]
  by_cases h1 : a = 0x89 <;> by_cases h2 : b = 80 <;> by_cases h3 : c = 78 <;>
    by_cases h4 : d = 71 <;> simp [h1, h2, h3, h4]

/-- C5: for every buffer of at least four bytes, `IsSupportedEx` returns TRUE
exactly when the first four bytes are 0x89, 'P', 'N', 'G' (and FALSE
otherwise), whatever the signedness of `char`; a buffer with the same first
four bytes gets the same answer, so later bytes never matter. -/
theorem IsSupportedEx_iff_signature (char_signed : Bool) (data : List Byte)
    (hlen : 4 ≤ data.length) :
    (IsSupportedEx char_signed data = some true ↔ data.take 4 = [0x89, 0x50, 0x4E, 0x47]) ∧
    (IsSupportedEx char_signed data = some false ↔ data.take 4 ≠ [0x89, 0x50, 0x4E, 0x47]) ∧
    (∀ other : List Byte, other.take 4 = data.take 4 →
      IsSupportedEx char_signed other = IsSupportedEx char_signed data) := by
  match data, hlen with
  | a :: b :: c :: d :: rest, _ =>
    rw [IsSupportedEx_four]
    refine ⟨?_, ?_, ?_⟩
    · simp
    · simp
    · intro other ho
      match other, ho with
      | [], ho => simp at ho
      | [_], ho => simp at ho
      | [_, _], ho => simp at ho
      | [_, _, _], ho => simp at ho
      | a' :: b' :: c' :: d' :: rest', ho =>
        rw [IsSupportedEx_four]
        simp at ho
        obtain ⟨rfl, rfl, rfl, rfl⟩ := ho
        rfl

/-- Witness for C5 on the first six bytes of a PNG file. -/
theorem IsSupportedEx_iff_signature_witness :
    4 ≤ ([0x89, 0x50, 0x4E, 0x47, 0x0D, 0x0A] : List Byte).length ∧
    IsSupportedEx true [0x89, 0x50, 0x4E, 0x47, 0x0D, 0x0A] = some true :=
  ⟨by decide,
    (IsSupportedEx_iff_signature true [0x89, 0x50, 0x4E, 0x47, 0x0D, 0x0A] (by decide)).1.mpr
      rfl⟩

/-! ## Theorems: the success path of the decoder adapter -/

/-- The outcome of a call that returns 0, spelled out. -/
theorem getBMPFromPNG_success (bits : Nat) (s : Session)
    (h : (getBMPFromPNG bits s).ret = 0) :
    ∃ requests, color_type_switch (palette_branch s).2 = some requests ∧
      getBMPFromPNG bits s =
        { ret := 0
          bitmap_file_header := some
            { bfType := 77 * 256 + 66
              bfSize := DWORD (size_t bits
                ((sizeof_BITMAPFILEHEADER : Int) + sizeof_BITMAPINFOHEADER +
                  raster_bytes bits (int32 (int32 s.width * 4)) (int32 s.height)))
              bfOffBits := DWORD (size_t bits
                ((sizeof_BITMAPFILEHEADER : Int) + sizeof_BITMAPINFOHEADER))
              bfReserved1 := 0
              bfReserved2 := 0 }
          bitmap_info_header := some
            { biSize := 40
              biWidth := int32 s.width
              biHeight := int32 s.height
              biPlanes := 1
              biBitCount := 32
              biCompression := 0
              biSizeImage := DWORD (size_t bits
                ((sizeof_BITMAPFILEHEADER : Int) + sizeof_BITMAPINFOHEADER +
                  raster_bytes bits (int32 (int32 s.width * 4)) (int32 s.height)))
              biXPelsPerMeter := 0
              biYPelsPerMeter := 0
              biClrUsed := 0
              biClrImportant := 0 }
          data := png_read_image s ((palette_branch s).1 ++ requests)
            (fill_row_pointers (int32 s.height) (int32 (int32 s.width * 4)))
            (List.replicate (raster_bytes bits (int32 (int32 s.width * 4)) (int32 s.height)) 0)
          plan := (palette_branch s).1 ++ requests
          row_pointers := fill_row_pointers (int32 s.height) (int32 (int32 s.width * 4))
          trace := [.acquire .read_struct, .acquire .info_struct, .acquire .end_info,
            .acquire .bitmap_data, .acquire .row_pointers, .release .row_pointers,
            .release .read_struct, .release .info_struct, .release .end_info] } := by
  by_cases h1 : s.create_read_struct = true
  swap
  · simp [getBMPFromPNG, h1, BmpOutcome.fail] at h
  by_cases h2 : s.create_info_struct = true
  swap
  · simp [getBMPFromPNG, h1, h2, BmpOutcome.fail] at h
  by_cases h3 : s.create_end_info = true
  swap
  · simp [getBMPFromPNG, h1, h2, h3, BmpOutcome.fail] at h
  by_cases h4 : s.error_at = some .png_read_info
  · simp [getBMPFromPNG, h1, h2, h3, h4, BmpOutcome.fail] at h
  cases hsw : color_type_switch (palette_branch s).2 with
  | none => simp [getBMPFromPNG, h1, h2, h3, h4, hsw, BmpOutcome.fail] at h
  | some requests =>
    refine ⟨requests, rfl, ?_⟩
    by_cases h5 : s.error_at = some .png_read_update_info
    · simp [getBMPFromPNG, h1, h2, h3, h4, hsw, h5, BmpOutcome.fail] at h
    by_cases h6 : s.malloc_bitmap_data = true
    swap
    · simp [getBMPFromPNG, h1, h2, h3, h4, hsw, h5, h6, BmpOutcome.fail] at h
    by_cases h7 : s.malloc_row_pointers = true
    swap
    · simp [getBMPFromPNG, h1, h2, h3, h4, hsw, h5, h6, h7, BmpOutcome.fail] at h
    by_cases h8 : s.error_at = some .png_read_image
    · simp [getBMPFromPNG, h1, h2, h3, h4, hsw, h5, h6, h7, h8, BmpOutcome.fail] at h
    by_cases h9 : s.error_at = some .png_read_end
    · simp [getBMPFromPNG, h1, h2, h3, h4, hsw, h5, h6, h7, h8, h9, BmpOutcome.fail] at h
    simp [getBMPFromPNG, h1, h2, h3, h4, hsw, h5, h6, h7, h8, h9, png_destroy_read_struct]

/-! ## Theorems: the size arithmetic -/

/-- Conversion to `int` keeps the value modulo `2^32`. -/
theorem int32_modEq (x : Int) : int32 x ≡ x [ZMOD 2 ^ 32] := by
  unfold int32 Int.ModEq
  norm_num
  omega

/-- Conversion to `int` keeps a value of the `int` range. -/
theorem int32_of_range (x : Int) (h0 : -(2 ^ 31) ≤ x) (h1 : x < 2 ^ 31) : int32 x = x := by
  unfold int32
  norm_num at h0 h1 ⊢
  omega

/-- Conversion to `size_t` keeps the value modulo `2^bits`. -/
theorem size_t_modEq (bits : Nat) (x : Int) : (size_t bits x : Int) ≡ x [ZMOD 2 ^ bits] := by
  rw [size_t_cast]
  exact Int.mod_modEq _ _

/-- With `size_t` of at least 32 bits the conversion keeps the value modulo `2^32`. -/
theorem size_t_modEq_DWORD (bits : Nat) (hbits : 32 ≤ bits) (x : Int) :
    (size_t bits x : Int) ≡ x [ZMOD 2 ^ 32] :=
  (size_t_modEq bits x).of_dvd (pow_dvd_pow 2 hbits)

/-- The requested raster size is `width*height*4` modulo `2^32`. -/
theorem raster_bytes_modEq (bits : Nat) (hbits : 32 ≤ bits) (w h : Nat) :
    (raster_bytes bits (int32 (int32 w * 4)) (int32 h) : Int) ≡
      ((w * h * 4 : Nat) : Int) [ZMOD 2 ^ 32] := by
  unfold raster_bytes
  have hw : int32 (int32 (w : Int) * 4) ≡ (w : Int) * 4 [ZMOD 2 ^ 32] :=
    (int32_modEq _).trans ((int32_modEq _).mul (Int.ModEq.refl 4))
  have h1 : (size_t bits (1 * (size_t bits (int32 (int32 (w : Int) * 4)) : Int)) : Int) ≡
      (w : Int) * 4 [ZMOD 2 ^ 32] := by
    refine (size_t_modEq_DWORD bits hbits _).trans ?_
    rw [one_mul]
    exact (size_t_modEq_DWORD bits hbits _).trans hw
  have h2 : (size_t bits (int32 (h : Int)) : Int) ≡ (h : Int) [ZMOD 2 ^ 32] :=
    (size_t_modEq_DWORD bits hbits _).trans (int32_modEq _)
  refine (size_t_modEq_DWORD bits hbits _).trans ((h1.mul h2).trans ?_)
  have e : (w : Int) * 4 * (h : Int) = ((w * h * 4 : Nat) : Int) := by push_cast; ring
  rw [e]

/-- A `DWORD` is determined by the value modulo `2^32`. -/
theorem DWORD_of_modEq (x : Int) (n : Nat) (h : x ≡ (n : Int) [ZMOD 2 ^ 32]) :
    DWORD x = n % 2 ^ 32 := by
  unfold DWORD
  unfold Int.ModEq at h
  rw [h]
  norm_num
  omega

/-- The stored `bfSize` is `54 + width*height*4` reduced modulo `2^32`. -/
theorem bfSize_eq (bits : Nat) (hbits : 32 ≤ bits) (w h : Nat) :
    DWORD (size_t bits ((sizeof_BITMAPFILEHEADER : Int) + sizeof_BITMAPINFOHEADER +
      raster_bytes bits (int32 (int32 w * 4)) (int32 h))) = (54 + w * h * 4) % 2 ^ 32 := by
  apply DWORD_of_modEq
  refine (size_t_modEq_DWORD bits hbits _).trans ?_
  have e : (((54 + w * h * 4 : Nat)) : Int) = (14 : Int) + 40 + ((w * h * 4 : Nat) : Int) := by
    push_cast; ring
  rw [e]
  exact (Int.ModEq.refl _).add (raster_bytes_modEq bits hbits w h)

/-- The stored `bfOffBits` is 54. -/
theorem bfOffBits_eq (bits : Nat) (hbits : 32 ≤ bits) :
    DWORD (size_t bits ((sizeof_BITMAPFILEHEADER : Int) + sizeof_BITMAPINFOHEADER)) = 54 := by
  have h : (size_t bits ((sizeof_BITMAPFILEHEADER : Int) + sizeof_BITMAPINFOHEADER) : Int) ≡
      ((54 : Nat) : Int) [ZMOD 2 ^ 32] := size_t_modEq_DWORD bits hbits _
  rw [DWORD_of_modEq _ 54 h]
  norm_num

/-! ## Theorems: the file header (C1) and the info header (C7) -/

/-- On every call that returns 0 both header records are written, the stored
`bfSize` is `54 + width*height*4` reduced modulo `2^32`, and `biSizeImage`
is a copy of `bfSize`. -/
theorem getBMPFromPNG_headers (bits : Nat) (s : Session) (hbits : 32 ≤ bits)
    (hret : (getBMPFromPNG bits s).ret = 0) :
    ∃ fh ih, (getBMPFromPNG bits s).bitmap_file_header = some fh ∧
      (getBMPFromPNG bits s).bitmap_info_header = some ih ∧
      fh.bfType = 0x4D42 ∧ fh.bfOffBits = 54 ∧
      fh.bfSize = (54 + s.width * s.height * 4) % 2 ^ 32 ∧
      ih.biSize = 40 ∧ ih.biWidth = int32 s.width ∧ ih.biHeight = int32 s.height ∧
      ih.biPlanes = 1 ∧ ih.biBitCount = 32 ∧ ih.biCompression = 0 ∧
      ih.biXPelsPerMeter = 0 ∧ ih.biYPelsPerMeter = 0 ∧ ih.biClrUsed = 0 ∧
      ih.biClrImportant = 0 ∧ ih.biSizeImage = fh.bfSize := by
  obtain ⟨requests, -, h⟩ := getBMPFromPNG_success bits s hret
  rw [h]
  exact ⟨_, _, rfl, rfl, rfl, bfOffBits_eq bits hbits, bfSize_eq bits hbits _ _, rfl, rfl, rfl,
    rfl, rfl, rfl, rfl, rfl, rfl, rfl, rfl⟩

/-- C1 (amended): on every call that returns 0 (with `size_t` of at least 32
bits) the file header has `bfOffBits = sizeof(BITMAPFILEHEADER) +
sizeof(BITMAPINFOHEADER) = 14 + 40 = 54`, and whenever `54 + width*height*4`
fits the 32-bit `bfSize` field, `bfSize - bfOffBits = width*height*4` as
exact integers, for the width and height the decoder reports. -/
theorem getBMPFromPNG_file_header_sizes (bits : Nat) (s : Session) (hbits : 32 ≤ bits)
    (hret : (getBMPFromPNG bits s).ret = 0) :
    ∃ fh, (getBMPFromPNG bits s).bitmap_file_header = some fh ∧
      fh.bfOffBits = sizeof_BITMAPFILEHEADER + sizeof_BITMAPINFOHEADER ∧
      fh.bfOffBits = 54 ∧
      (54 + s.width * s.height * 4 < 2 ^ 32 →
        (fh.bfSize : Int) - fh.bfOffBits = (s.width : Int) * s.height * 4) := by
  obtain ⟨fh, ih, h1, -, -, h2, h3, -⟩ := getBMPFromPNG_headers bits s hbits hret
  refine ⟨fh, h1, h2, h2, fun hfit => ?_⟩
  rw [h2, h3, Nat.mod_eq_of_lt hfit]
  push_cast
  ring

/-- Witness for C1 on the 2x2 image. -/
theorem getBMPFromPNG_file_header_sizes_witness :
    (getBMPFromPNG 64 rgb_2x2).ret = 0 ∧
    ∃ fh, (getBMPFromPNG 64 rgb_2x2).bitmap_file_header = some fh ∧
      fh.bfOffBits = sizeof_BITMAPFILEHEADER + sizeof_BITMAPINFOHEADER ∧
      fh.bfOffBits = 54 ∧
      (54 + rgb_2x2.width * rgb_2x2.height * 4 < 2 ^ 32 →
        (fh.bfSize : Int) - fh.bfOffBits = (rgb_2x2.width : Int) * rgb_2x2.height * 4) :=
  ⟨by decide, getBMPFromPNG_file_header_sizes 64 rgb_2x2 (by decide) (by decide)⟩

/-- C1 as stated fails: for the 32768 x 32768 image the call returns 0 and
stores `bfSize = 54 = bfOffBits`, so `bfSize - bfOffBits` is 0 and not
`width*height*4 = 2^32`. -/
theorem getBMPFromPNG_bfSize_wraps :
    (getBMPFromPNG 64 rgb_32768).ret = 0 ∧
    ∃ fh, (getBMPFromPNG 64 rgb_32768).bitmap_file_header = some fh ∧
      fh.bfOffBits = 54 ∧ fh.bfSize = 54 ∧
      (fh.bfSize : Int) - fh.bfOffBits ≠ (rgb_32768.width : Int) * rgb_32768.height * 4 := by
  refine ⟨by decide, ⟨19778, 54, 0, 0, 54⟩, by decide, rfl, rfl, by decide⟩

/-- C7 (the code at the failing input): for the 2x2 image the call returns 0
and writes the info header of the claim except for `biSizeImage`, which is
70, the value of `bfSize` (headers included), and not the pixel data size
`width*height*4 = 16`. -/
theorem getBMPFromPNG_biSizeImage_counts_headers :
    (getBMPFromPNG 64 rgb_2x2).ret = 0 ∧
    (getBMPFromPNG 64 rgb_2x2).bitmap_info_header = some
      { biSize := 40, biWidth := 2, biHeight := 2, biPlanes := 1, biBitCount := 32,
        biCompression := 0, biSizeImage := 70, biXPelsPerMeter := 0, biYPelsPerMeter := 0,
        biClrUsed := 0, biClrImportant := 0 } ∧
    (getBMPFromPNG 64 rgb_2x2).bitmap_file_header.map (fun fh => fh.bfSize) = some 70 ∧
    rgb_2x2.width * rgb_2x2.height * 4 = 16 := by
  decide

/-! ## Theorems: the row-pointer table (C2) -/

/-- The loop adds one table entry in each iteration. -/
theorem fill_row_pointers_loop_length (H bl : Int) (k y0 : Nat) :
    (fill_row_pointers_loop H bl k y0).length = k := by
  induction k generalizing y0 with
  | zero => rfl
  | succ k ih => simp [fill_row_pointers_loop, ih]

/-- The table entry the loop writes for row `y0 + i`. -/
theorem fill_row_pointers_loop_get? (H bl : Int) (k y0 i : Nat) (hi : i < k) :
    (fill_row_pointers_loop H bl k y0).get? i =
      some (int32 (int32 (int32 (H - ((y0 + i : Nat) : Int)) - 1) * bl)) := by
  induction k generalizing y0 i with
  | zero => omega
  | succ k ih =>
    cases i with
    | zero => simp [fill_row_pointers_loop]
    | succ i =>
      simp only [fill_row_pointers_loop, List.get?_cons_succ]
      rw [ih (y0 + 1) i (by omega)]
      have e : y0 + 1 + i = y0 + (i + 1) := by omega
      rw [e]

/-- Within the range of `int`, the table entry of row `y` is the offset
`(height - y - 1) * width * 4`. -/
theorem row_offset_exact (w h y : Nat) (hy : y < h) (hh : h < 2 ^ 31)
    (hfit : (h - 1) * w * 4 < 2 ^ 31) :
    int32 (int32 (int32 (int32 (h : Int) - ((0 + y : Nat) : Int)) - 1) *
      int32 (int32 (w : Int) * 4)) = (((h - y - 1) * w * 4 : Nat) : Int) := by
  have e1 : int32 (h : Int) = h := int32_of_range _ (by omega) (by omega)
  have e2 : int32 ((h : Int) - ((0 + y : Nat) : Int)) = ((h - y : Nat) : Int) := by
    have r : int32 ((h : Int) - ((0 + y : Nat) : Int)) = (h : Int) - ((0 + y : Nat) : Int) :=
      int32_of_range _ (by omega) (by omega)
    rw [r]
    omega
  have e3 : int32 (((h - y : Nat) : Int) - 1) = ((h - y - 1 : Nat) : Int) := by
    have r : int32 (((h - y : Nat) : Int) - 1) = ((h - y : Nat) : Int) - 1 :=
      int32_of_range _ (by omega) (by omega)
    rw [r]
    omega
  rw [e1, e2, e3]
  rcases Nat.eq_zero_or_pos (h - y - 1) with hk | hk
  · rw [hk]
    have z : int32 0 = 0 := by decide
    simp only [Nat.cast_zero, zero_mul, z]
  · have hle : (h - y - 1) * (w * 4) ≤ (h - 1) * (w * 4) :=
      Nat.mul_le_mul_right _ (by omega)
    have hw : w * 4 ≤ (h - y - 1) * (w * 4) := Nat.le_mul_of_pos_left _ hk
    have hfit2 : (h - 1) * (w * 4) < 2 ^ 31 := by rw [← Nat.mul_assoc]; exact hfit
    have hp : (h - y - 1) * (w * 4) < 2 ^ 31 := lt_of_le_of_lt hle hfit2
    have hw4 : w * 4 < 2 ^ 31 := lt_of_le_of_lt hw hp
    have e6 : ((h - y - 1 : Nat) : Int) * ((w * 4 : Nat) : Int) =
        (((h - y - 1) * (w * 4) : Nat) : Int) := by push_cast; rfl
    rw [Nat.mul_assoc]
    generalize (h - y - 1) * (w * 4) = p at hp e6 ⊢
    clear hle hw hfit2 hfit e1 e2 e3
    have e4 : int32 (w : Int) = w := int32_of_range _ (by omega) (by omega)
    have e5 : int32 ((w : Int) * 4) = ((w * 4 : Nat) : Int) := by
      have r : int32 ((w : Int) * 4) = (w : Int) * 4 := int32_of_range _ (by omega) (by omega)
      rw [r]
      push_cast
      rfl
    have e7 : int32 (p : Int) = p := int32_of_range _ (by omega) (by omega)
    rw [e4, e5, e6, e7]

/-- The row-pointer table of a call that returns 0, within the range of
`int`: one entry for each row, entry `y` being `(height - y - 1)*width*4`. -/
theorem getBMPFromPNG_row_table (bits : Nat) (s : Session)
    (hret : (getBMPFromPNG bits s).ret = 0) (hh : s.height < 2 ^ 31)
    (hfit : (s.height - 1) * s.width * 4 < 2 ^ 31) :
    (getBMPFromPNG bits s).row_pointers.length = s.height ∧
    (∀ y, y < s.height →
      (getBMPFromPNG bits s).row_pointers.get? y =
        some (((s.height - y - 1) * s.width * 4 : Nat) : Int)) := by
  obtain ⟨requests, -, h⟩ := getBMPFromPNG_success bits s hret
  have e1 : int32 (s.height : Int) = s.height :=
    int32_of_range _ (by omega) (by omega)
  have hr : (getBMPFromPNG bits s).row_pointers =
      fill_row_pointers (int32 s.height) (int32 (int32 s.width * 4)) := by rw [h]
  refine ⟨?_, fun y hy => ?_⟩
  · rw [hr]
    unfold fill_row_pointers
    rw [fill_row_pointers_loop_length, e1]
    simp
  · rw [hr]
    unfold fill_row_pointers
    rw [fill_row_pointers_loop_get? _ _ _ _ _ (by rw [e1]; simpa using hy)]
    rw [row_offset_exact s.width s.height y hy hh hfit]

/-- C2 (amended): for every image whose height fits `int` and whose largest
row offset `(h - 1)*w*4` is below `2^31` (the range of the `int` arithmetic
of the table), and every source row `y` with `0 <= y < h`, the row-pointer
table has `h` entries and directs decoded source row `y` (top to bottom) to
byte offset `(h - y - 1)*w*4` of the raster: source row 0 to offset
`(h - 1)*w*4`, the last source row to offset 0; and for the 2x2 example the
raster is source row 1 followed by source row 0, that is blue, white, red,
green in B, G, R, A order. -/
theorem getBMPFromPNG_row_pointers (bits : Nat) (s : Session)
    (hret : (getBMPFromPNG bits s).ret = 0) (hh : s.height < 2 ^ 31)
    (hfit : (s.height - 1) * s.width * 4 < 2 ^ 31) :
    (getBMPFromPNG bits s).row_pointers.length = s.height ∧
    (∀ y, y < s.height →
      (getBMPFromPNG bits s).row_pointers.get? y =
        some (((s.height - y - 1) * s.width * 4 : Nat) : Int)) ∧
    (0 < s.height →
      (getBMPFromPNG bits s).row_pointers.get? 0 =
        some ((((s.height - 1) * s.width * 4 : Nat)) : Int) ∧
      (getBMPFromPNG bits s).row_pointers.get? (s.height - 1) = some 0) ∧
    (getBMPFromPNG 64 rgb_2x2).data =
      some (transformed_row rgb_2x2 (getBMPFromPNG 64 rgb_2x2).plan 1 ++
        transformed_row rgb_2x2 (getBMPFromPNG 64 rgb_2x2).plan 0) ∧
    (getBMPFromPNG 64 rgb_2x2).data =
      some [255, 0, 0, 255, 255, 255, 255, 255, 0, 0, 255, 255, 0, 255, 0, 255] := by
  obtain ⟨hlen, hrow⟩ := getBMPFromPNG_row_table bits s hret hh hfit
  refine ⟨hlen, hrow, fun hpos => ⟨?_, ?_⟩, by decide, by decide⟩
  · have := hrow 0 hpos
    simpa using this
  · have := hrow (s.height - 1) (by omega)
    have e : s.height - (s.height - 1) - 1 = 0 := by omega
    rw [this, e]
    simp

/-- Witness for C2 on the 2x2 image. -/
theorem getBMPFromPNG_row_pointers_witness :
    (getBMPFromPNG 64 rgb_2x2).ret = 0 ∧ rgb_2x2.height < 2 ^ 31 ∧
    (rgb_2x2.height - 1) * rgb_2x2.width * 4 < 2 ^ 31 ∧
    (getBMPFromPNG 64 rgb_2x2).row_pointers.get? 0 = some 8 ∧
    (getBMPFromPNG 64 rgb_2x2).row_pointers.get? 1 = some 0 :=
  ⟨by decide, by decide, by decide,
    (getBMPFromPNG_row_pointers 64 rgb_2x2 (by decide) (by decide) (by decide)).2.2.1
      (by decide)⟩

/-- C2 as stated fails: for the 1000000 x 538 image the call returns 0 and
the table entry of source row 0 is the wrapped `int` product `-2146967296`,
not `(h - 0 - 1)*w*4 = 2148000000`. -/
theorem getBMPFromPNG_row_offset_wraps :
    (getBMPFromPNG 64 rgb_1000000x538).ret = 0 ∧
    (getBMPFromPNG 64 rgb_1000000x538).row_pointers.get? 0 = some (-2146967296) ∧
    (-2146967296 : Int) ≠
      (((rgb_1000000x538.height - 0 - 1) * rgb_1000000x538.width * 4 : Nat) : Int) := by
  decide

/-! ## Theorems: the raster is bottom-up -/

/-- A store inside the allocation replaces the bytes at the offset. -/
theorem store_some (m bs : List Byte) (off : Nat) (h : off + bs.length ≤ m.length) :
    store (some m) (off : Int) bs = some (m.take off ++ bs ++ m.drop (off + bs.length)) := by
  unfold store
  simp only [Int.toNat_ofNat]
  rw [if_pos ⟨Int.ofNat_nonneg _, h⟩]

/-- The rows stored so far: after the first `k` rows the raster is the part
not yet written followed by rows `k - 1`, ..., `0`. -/
theorem png_read_image_rows (s : Session) (plan : List Transform) (rp : List Int) (L : Nat)
    (hlen : ∀ y, y < s.height → (transformed_row s plan y).length = L)
    (hrp : ∀ y, y < s.height → rp.get? y = some (((s.height - y - 1) * L : Nat) : Int))
    (k : Nat) (hk : k ≤ s.height) :
    (List.range k).foldl (fun m y =>
        match rp.get? y with
        | none => none
        | some off => store m off (transformed_row s plan y))
        (some (List.replicate (s.height * L) (0 : Byte))) =
      some (List.replicate ((s.height - k) * L) (0 : Byte) ++
        (List.range k).reverse.flatMap (transformed_row s plan)) := by
  induction k with
  | zero => simp
  | succ k ih =>
    have hk2 : k < s.height := hk
    rw [List.range_succ, List.foldl_append, ih (Nat.le_of_lt hk2)]
    simp only [List.foldl_cons, List.foldl_nil, hrp k hk2]
    have hsplit : (s.height - k) * L = (s.height - k - 1) * L + L := by
      have : s.height - k = (s.height - k - 1) + 1 := by omega
      rw [this, Nat.succ_mul]
      simp
    have hsub : s.height - (k + 1) = s.height - k - 1 := by omega
    rw [store_some _ _ _ (by
      rw [hlen k hk2, List.length_append, List.length_replicate, hsplit]
      omega)]
    rw [hlen k hk2, hsub]
    congr 1
    rw [List.take_append_of_le_length (by rw [List.length_replicate, hsplit]; omega),
      List.take_replicate, ← hsplit,
      List.drop_append_of_le_length (by rw [List.length_replicate]), List.drop_replicate]
    simp [hsplit, List.reverse_append]

/-- Row order of the raster: on a call that returns 0 for an image with
nonzero dimensions whose raster size `height*width*4` is below `2^31`, and
whose transformed rows have `width*4` bytes each, the bytes behind `*data`
are the transformed rows from the last source row up to source row 0. -/
theorem getBMPFromPNG_raster_bottom_up (bits : Nat) (s : Session) (hbits : 32 ≤ bits)
    (hret : (getBMPFromPNG bits s).ret = 0) (hw : 0 < s.width) (hh : 0 < s.height)
    (hfit : s.height * s.width * 4 < 2 ^ 31)
    (hrows : ∀ y, y < s.height →
      (transformed_row s (getBMPFromPNG bits s).plan y).length = s.width * 4) :
    (getBMPFromPNG bits s).data =
      some ((List.range s.height).reverse.flatMap
        (transformed_row s (getBMPFromPNG bits s).plan)) := by
  have hwh : s.width * 4 ≤ s.height * (s.width * 4) := Nat.le_mul_of_pos_left _ hh
  have hhw : s.height ≤ s.height * (s.width * 4) := Nat.le_mul_of_pos_right _ (by omega)
  have hfit2 : s.height * (s.width * 4) < 2 ^ 31 := by rw [← Nat.mul_assoc]; exact hfit
  have hh31 : s.height < 2 ^ 31 := lt_of_le_of_lt hhw hfit2
  have hw31 : s.width * 4 < 2 ^ 31 := lt_of_le_of_lt hwh hfit2
  have hfit1 : (s.height - 1) * s.width * 4 < 2 ^ 31 := by
    have : (s.height - 1) * (s.width * 4) ≤ s.height * (s.width * 4) :=
      Nat.mul_le_mul_right _ (Nat.sub_le _ _)
    rw [Nat.mul_assoc]
    exact lt_of_le_of_lt this hfit2
  have hpow : (2 : Nat) ^ 31 < 2 ^ bits := Nat.pow_lt_pow_right (by decide) (by omega)
  obtain ⟨requests, -, h⟩ := getBMPFromPNG_success bits s hret
  have hp : (getBMPFromPNG bits s).plan = (palette_branch s).1 ++ requests := by rw [h]
  have hd : (getBMPFromPNG bits s).data = png_read_image s ((palette_branch s).1 ++ requests)
      (fill_row_pointers (int32 s.height) (int32 (int32 s.width * 4)))
      (List.replicate (raster_bytes bits (int32 (int32 s.width * 4)) (int32 s.height)) 0) := by
    rw [h]
  have hr : (getBMPFromPNG bits s).row_pointers =
      fill_row_pointers (int32 s.height) (int32 (int32 s.width * 4)) := by rw [h]
  have htab := (getBMPFromPNG_row_table bits s hret hh31 hfit1).2
  rw [hr] at htab
  rw [hp] at hrows ⊢
  rw [hd]
  have e1 : int32 (s.width : Int) = s.width := int32_of_range _ (by omega) (by omega)
  have e2 : int32 ((s.width : Int) * 4) = ((s.width * 4 : Nat) : Int) := by
    have r : int32 ((s.width : Int) * 4) = (s.width : Int) * 4 :=
      int32_of_range _ (by omega) (by omega)
    rw [r]; push_cast; rfl
  have e3 : int32 (s.height : Int) = s.height := int32_of_range _ (by omega) (by omega)
  have e4 : ((s.width * 4 : Nat) : Int) * (s.height : Int) =
      ((s.height * (s.width * 4) : Nat) : Int) := by push_cast; ring
  have hsize : raster_bytes bits (int32 (int32 s.width * 4)) (int32 s.height) =
      s.height * (s.width * 4) := by
    unfold raster_bytes
    rw [e1, e2, e3, one_mul, size_t_natCast, size_t_natCast, size_t_natCast,
      Nat.mod_eq_of_lt (lt_trans hw31 hpow), Nat.mod_eq_of_lt (lt_trans hw31 hpow),
      Nat.mod_eq_of_lt (lt_trans hh31 hpow), e4, size_t_natCast,
      Nat.mod_eq_of_lt (lt_trans hfit2 hpow)]
  rw [hsize]
  unfold png_read_image
  rw [png_read_image_rows s _ _ (s.width * 4) hrows ?_ s.height (Nat.le_refl _)]
  · simp
  · intro y hy
    rw [htab y hy, Nat.mul_assoc]

/-! ## Theorems: the transform plan (C3, C4) -/

/-- The requests of a call that returns 0, by source colour type. -/
theorem getBMPFromPNG_plan (bits : Nat) (s : Session)
    (hret : (getBMPFromPNG bits s).ret = 0) :
    (s.color_type = PNG_COLOR_TYPE_GRAY ∧
      (getBMPFromPNG bits s).plan = [.png_set_expand, .png_set_gray_to_rgb,
        .png_set_filler 0xff .PNG_FILLER_AFTER]) ∨
    (s.color_type = PNG_COLOR_TYPE_GRAY_ALPHA ∧
      (getBMPFromPNG bits s).plan = [.png_set_gray_to_rgb,
        .png_set_filler 0xff .PNG_FILLER_AFTER]) ∨
    (s.color_type = PNG_COLOR_TYPE_PALETTE ∧ png_get_valid_tRNS s = true ∧
      (getBMPFromPNG bits s).plan = [.png_set_palette_to_rgb, .png_set_tRNS_to_alpha,
        .png_set_bgr]) ∨
    (s.color_type = PNG_COLOR_TYPE_PALETTE ∧ png_get_valid_tRNS s = false ∧
      (getBMPFromPNG bits s).plan = [.png_set_palette_to_rgb, .png_set_bgr,
        .png_set_filler 0xff .PNG_FILLER_AFTER]) ∨
    (s.color_type = PNG_COLOR_TYPE_RGB ∧
      (getBMPFromPNG bits s).plan = [.png_set_bgr, .png_set_filler 0xff .PNG_FILLER_AFTER]) ∨
    (s.color_type = PNG_COLOR_TYPE_RGB_ALPHA ∧
      (getBMPFromPNG bits s).plan = [.png_set_bgr]) := by
  obtain ⟨requests, hsw, h⟩ := getBMPFromPNG_success bits s hret
  have hp : (getBMPFromPNG bits s).plan = (palette_branch s).1 ++ requests := by rw [h]
  rw [hp]
  clear h hp hret
  unfold palette_branch at hsw ⊢
  by_cases hpal : s.color_type = PNG_COLOR_TYPE_PALETTE
  · cases hv : png_get_valid_tRNS s
    · simp only [hpal, hv, if_true, Bool.false_eq_true, if_false] at hsw ⊢
      have : requests = [.png_set_bgr, .png_set_filler 0xff .PNG_FILLER_AFTER] := by
        simpa [color_type_switch, PNG_COLOR_TYPE_RGB, PNG_COLOR_TYPE_GRAY_ALPHA,
          PNG_COLOR_TYPE_GRAY, PNG_COLOR_TYPE_RGB_ALPHA] using hsw.symm
      subst this
      simp
    · simp only [hpal, hv, if_true] at hsw ⊢
      have : requests = [.png_set_bgr] := by
        simpa [color_type_switch, PNG_COLOR_TYPE_RGB, PNG_COLOR_TYPE_GRAY_ALPHA,
          PNG_COLOR_TYPE_GRAY, PNG_COLOR_TYPE_RGB_ALPHA] using hsw.symm
      subst this
      simp
  · simp only [hpal, if_false] at hsw ⊢
    unfold color_type_switch at hsw
    split_ifs at hsw with h1 h2 h3 h4
    · simp only [Option.some.injEq] at hsw
      subst hsw
      exact Or.inr (Or.inl ⟨h1, rfl⟩)
    · simp only [Option.some.injEq] at hsw
      subst hsw
      exact Or.inl ⟨h2, rfl⟩
    · simp only [Option.some.injEq] at hsw
      subst hsw
      exact Or.inr (Or.inr (Or.inr (Or.inr (Or.inr ⟨h3, rfl⟩))))
    · simp only [Option.some.injEq] at hsw
      subst hsw
      exact Or.inr (Or.inr (Or.inr (Or.inr (Or.inl ⟨h4, rfl⟩))))
/-- An octet is the byte of its own value. -/
theorem byte_ofNat_val (b : Byte) : (Fin.ofNat b.val : Byte) = b :=
  Fin.ext (Nat.mod_eq_of_lt b.isLt)

/-- With expansion requested, a row of at most 8 bits per sample comes out
with 8 bits per sample. -/
theorem row_depth_of_expand (plan : List Transform) (d : Nat) (hd : d ≤ 8)
    (he : expand_requested plan = true) : row_depth plan d = 8 := by
  unfold row_depth
  by_cases h : d < 8
  · simp [he, h]
  · have : d = 8 := by omega
    simp [this]

/-- C3 (amended): on a call that returns 0 the source colour type is one of
gray, gray+alpha, palette, RGB, RGB+alpha; the only filler ever requested is
0xFF after the colour bytes, and it is requested exactly when the colour
type is neither RGB+alpha nor palette with a transparency chunk: so for
gray, RGB, palette without a transparency chunk, and also for gray+alpha.
Under the requests the alpha sample of a gray+alpha or an RGB+alpha source
(8 or 16 bits) is carried through unchanged, the filler leaving a row that
has alpha as it is.  For sources with samples of at most 8 bits every pixel
becomes four bytes: the fourth is the source alpha for gray+alpha,
RGB+alpha and palette with a transparency chunk, and 0xFF for gray without
a transparent key, RGB, and palette without a transparency chunk. -/
theorem getBMPFromPNG_alpha_plan (bits : Nat) (s : Session)
    (hret : (getBMPFromPNG bits s).ret = 0) :
    (s.color_type = PNG_COLOR_TYPE_GRAY ∨ s.color_type = PNG_COLOR_TYPE_GRAY_ALPHA ∨
      s.color_type = PNG_COLOR_TYPE_PALETTE ∨ s.color_type = PNG_COLOR_TYPE_RGB ∨
      s.color_type = PNG_COLOR_TYPE_RGB_ALPHA) ∧
    (∀ f loc, Transform.png_set_filler f loc ∈ (getBMPFromPNG bits s).plan →
      f = 0xff ∧ loc = .PNG_FILLER_AFTER) ∧
    (Transform.png_set_filler 0xff .PNG_FILLER_AFTER ∈ (getBMPFromPNG bits s).plan ↔
      ¬ (s.color_type = PNG_COLOR_TYPE_RGB_ALPHA ∨
        (s.color_type = PNG_COLOR_TYPE_PALETTE ∧ png_get_valid_tRNS s = true))) ∧
    (s.color_type = PNG_COLOR_TYPE_GRAY_ALPHA → s.bit_depth = 8 ∨ s.bit_depth = 16 →
      ∀ g a : Nat,
      png_do_read_transformations (getBMPFromPNG bits s).plan s.palette s.trns s.bit_depth
        (.gray_alpha g a) = [g, g, g, a]) ∧
    (s.color_type = PNG_COLOR_TYPE_RGB_ALPHA → s.bit_depth = 8 ∨ s.bit_depth = 16 →
      ∀ r g b a : Nat,
      png_do_read_transformations (getBMPFromPNG bits s).plan s.palette s.trns s.bit_depth
        (.rgba r g b a) = [b, g, r, a]) ∧
    (s.color_type = PNG_COLOR_TYPE_GRAY_ALPHA → s.bit_depth = 8 → ∀ g a : Byte,
      transformed_pixel s (getBMPFromPNG bits s).plan (.gray_alpha g.val a.val) =
        [g, g, g, a]) ∧
    (s.color_type = PNG_COLOR_TYPE_RGB_ALPHA → s.bit_depth = 8 → ∀ r g b a : Byte,
      transformed_pixel s (getBMPFromPNG bits s).plan (.rgba r.val g.val b.val a.val) =
        [b, g, r, a]) ∧
    (s.color_type = PNG_COLOR_TYPE_PALETTE → s.bit_depth ≤ 8 → ∀ alpha : List Byte,
      s.trns = some (.palette alpha) → 0 < alpha.length → ∀ i : Nat,
      transformed_pixel s (getBMPFromPNG bits s).plan (.index i) =
        [(s.palette.getD i (0, 0, 0)).2.2, (s.palette.getD i (0, 0, 0)).2.1,
          (s.palette.getD i (0, 0, 0)).1, alpha.getD i 255]) ∧
    (s.color_type = PNG_COLOR_TYPE_GRAY → s.bit_depth ≤ 8 → s.trns = none → ∀ g : Nat,
      transformed_pixel s (getBMPFromPNG bits s).plan (.gray g) =
        [Fin.ofNat (expand_sample s.bit_depth g), Fin.ofNat (expand_sample s.bit_depth g),
          Fin.ofNat (expand_sample s.bit_depth g), 0xff]) ∧
    (s.color_type = PNG_COLOR_TYPE_RGB → s.bit_depth = 8 → ∀ r g b : Byte,
      transformed_pixel s (getBMPFromPNG bits s).plan (.rgb r.val g.val b.val) =
        [b, g, r, 0xff]) ∧
    (s.color_type = PNG_COLOR_TYPE_PALETTE → s.bit_depth ≤ 8 →
      png_get_valid_tRNS s = false → ∀ i : Nat,
      transformed_pixel s (getBMPFromPNG bits s).plan (.index i) =
        [(s.palette.getD i (0, 0, 0)).2.2, (s.palette.getD i (0, 0, 0)).2.1,
          (s.palette.getD i (0, 0, 0)).1, 0xff]) := by
  have hplan := getBMPFromPNG_plan bits s hret
  simp only [PNG_COLOR_TYPE_GRAY, PNG_COLOR_TYPE_GRAY_ALPHA, PNG_COLOR_TYPE_PALETTE,
    PNG_COLOR_TYPE_RGB, PNG_COLOR_TYPE_RGB_ALPHA] at hplan ⊢
  rcases hplan with ⟨h, hp⟩ | ⟨h, hp⟩ | ⟨h, hv, hp⟩ | ⟨h, hv, hp⟩ | ⟨h, hp⟩ | ⟨h, hp⟩ <;>
    rw [hp] <;> refine ⟨by omega, ?_, ?_, ?_, ?_, ?_, ?_, ?_, ?_, ?_, ?_⟩
  all_goals first
    | (intro hc; omega)
    | (intro f loc hm; simp at hm; exact hm)
    | (simp [h]; done)
    | (simp [h, hv]; done)
    | skip
  case inl.intro.refine_8 =>
    intro _ hd ht g
    have hr := row_depth_of_expand [.png_set_expand, .png_set_gray_to_rgb,
      .png_set_filler 0xff .PNG_FILLER_AFTER] s.bit_depth hd rfl
    simp [transformed_pixel, png_do_read_transformations, hr, expand_requested,
      filler_requested, do_expand, ht, do_gray_to_rgb, do_read_filler, filler_sample,
      sample_bytes]
    rfl
  case inr.inl.intro.refine_3 =>
    intro _ hd g a
    rcases hd with hd | hd <;>
      simp [png_do_read_transformations, row_depth, expand_requested, filler_requested,
        do_gray_to_rgb, do_read_filler, Pixel.channels, hd]
  case inr.inl.intro.refine_5 =>
    intro _ hd g a
    simp [transformed_pixel, png_do_read_transformations, row_depth, expand_requested,
      filler_requested, do_gray_to_rgb, do_read_filler, Pixel.channels, sample_bytes, hd,
      byte_ofNat_val]
  case inr.inr.inl.intro.intro.refine_7 =>
    intro _ hd alpha ht hlen i
    have hr := row_depth_of_expand [.png_set_palette_to_rgb, .png_set_tRNS_to_alpha,
      .png_set_bgr] s.bit_depth hd rfl
    simp [transformed_pixel, png_do_read_transformations, hr, expand_requested,
      filler_requested, do_expand, ht, hlen, do_bgr, Pixel.channels, sample_bytes,
      byte_ofNat_val]
  case inr.inr.inr.inl.intro.intro.refine_7 =>
    intro _ _ alpha ht hlen i
    simp [png_get_valid_tRNS, ht, hlen] at hv
  case inr.inr.inr.inl.intro.intro.refine_10 =>
    intro _ hd _ i
    have hr := row_depth_of_expand [.png_set_palette_to_rgb, .png_set_bgr,
      .png_set_filler 0xff .PNG_FILLER_AFTER] s.bit_depth hd rfl
    unfold png_get_valid_tRNS at hv
    cases ht : s.trns with
    | none =>
      simp [transformed_pixel, png_do_read_transformations, hr, expand_requested,
        filler_requested, do_expand, ht, do_bgr, do_read_filler, filler_sample, sample_bytes,
        byte_ofNat_val]
      rfl
    | some t =>
      cases t with
      | palette alpha =>
        have hlen : ¬ 0 < alpha.length := by simpa [ht] using hv
        simp [transformed_pixel, png_do_read_transformations, hr, expand_requested,
          filler_requested, do_expand, ht, hlen, do_bgr, do_read_filler, filler_sample,
          sample_bytes, byte_ofNat_val]
        rfl
      | gray key => simp [ht] at hv
      | rgb r g b => simp [ht] at hv
  case inr.inr.inr.inr.inl.intro.refine_9 =>
    intro _ hd r g b
    simp [transformed_pixel, png_do_read_transformations, row_depth, expand_requested,
      filler_requested, do_bgr, do_read_filler, filler_sample, sample_bytes, hd,
      byte_ofNat_val]
    rfl
  case inr.inr.inr.inr.inr.intro.refine_4 =>
    intro _ hd r g b a
    rcases hd with hd | hd <;>
      simp [png_do_read_transformations, row_depth, expand_requested, filler_requested,
        do_bgr, Pixel.channels, hd]
  case inr.inr.inr.inr.inr.intro.refine_6 =>
    intro _ hd r g b a
    simp [transformed_pixel, png_do_read_transformations, row_depth, expand_requested,
      filler_requested, do_bgr, Pixel.channels, sample_bytes, hd, byte_ofNat_val]

/-- Witness for C3 on the 1x1 gray+alpha image: alpha 50 is carried through. -/
theorem getBMPFromPNG_alpha_plan_witness :
    (getBMPFromPNG 64 gray_alpha_1x1).ret = 0 ∧ gray_alpha_1x1.bit_depth = 8 ∧
    transformed_pixel gray_alpha_1x1 (getBMPFromPNG 64 gray_alpha_1x1).plan
      (.gray_alpha (100 : Byte).val (50 : Byte).val) = [100, 100, 100, 50] :=
  ⟨by decide, rfl,
    (getBMPFromPNG_alpha_plan 64 gray_alpha_1x1 (by decide)).2.2.2.2.2.1 rfl rfl 100 50⟩

/-- C3 as stated fails: the 1x1 gray+alpha image has an alpha channel, the
call returns 0, and the 0xFF filler is requested all the same. -/
theorem getBMPFromPNG_gray_alpha_filler :
    (getBMPFromPNG 64 gray_alpha_1x1).ret = 0 ∧
    gray_alpha_1x1.color_type = PNG_COLOR_TYPE_GRAY_ALPHA ∧
    (getBMPFromPNG 64 gray_alpha_1x1).plan =
      [.png_set_gray_to_rgb, .png_set_filler 0xff .PNG_FILLER_AFTER] ∧
    Transform.png_set_filler 0xff .PNG_FILLER_AFTER ∈ (getBMPFromPNG 64 gray_alpha_1x1).plan := by
  decide

/-! ## Theorems: resources of the decoder adapter (C9) -/

/-- On a call that returns 0 the decode context and the row-pointer table
have been released; only the raster, handed to the caller, is still held. -/
theorem getBMPFromPNG_success_live (bits : Nat) (s : Session)
    (hret : (getBMPFromPNG bits s).ret = 0) :
    live (getBMPFromPNG bits s).trace = [.bitmap_data] := by
  obtain ⟨requests, -, h⟩ := getBMPFromPNG_success bits s hret
  have ht : (getBMPFromPNG bits s).trace =
      [.acquire .read_struct, .acquire .info_struct, .acquire .end_info,
        .acquire .bitmap_data, .acquire .row_pointers, .release .row_pointers,
        .release .read_struct, .release .info_struct, .release .end_info] := by rw [h]
  rw [ht]
  decide

/-- C9 (the code at failing inputs): when the library takes its error jump
inside `png_read_image` (image data cut short), the call returns -1 with the
raster and the row-pointer table still allocated; when the row-pointer
table cannot be allocated, with the raster still allocated; when the first
info record cannot be created, with the decode context not released; and in
the `default` case of the colour type switch, with the context and both
info records not released. -/
theorem getBMPFromPNG_failure_paths_leak :
    (getBMPFromPNG 64 rgb_2x2_truncated).ret = -1 ∧
    live (getBMPFromPNG 64 rgb_2x2_truncated).trace = [.bitmap_data, .row_pointers] ∧
    (getBMPFromPNG 64 { rgb_2x2 with malloc_row_pointers := false }).ret = -1 ∧
    live (getBMPFromPNG 64 { rgb_2x2 with malloc_row_pointers := false }).trace =
      [.bitmap_data] ∧
    (getBMPFromPNG 64 { rgb_2x2 with create_info_struct := false }).ret = -1 ∧
    live (getBMPFromPNG 64 { rgb_2x2 with create_info_struct := false }).trace =
      [.read_struct] ∧
    (getBMPFromPNG 64 { rgb_2x2 with color_type := 7 }).ret = -1 ∧
    live (getBMPFromPNG 64 { rgb_2x2 with color_type := 7 }).trace =
      [.read_struct, .info_struct, .end_info] := by
  decide

/-! ## Theorems: the host blocks of `GetPictureEx` (C8) -/

/-- C8: in `GetPictureEx`, once the first progress check lets the call go
on and the decode returns 0: if at least one of the two host allocations
fails, the call returns `SPI_NO_MEMORY`, writes into no block, and holds no
host block on return; if both succeed and at least one lock fails, the call
returns `SPI_MEMORY_ERROR`, writes into no block, and holds no host block on
return. -/
theorem GetPictureEx_no_partial_output (bits : Nat) (h : Host) (s : Session)
    (hgo : progress_abort h 0 = false) (hdec : (getBMPFromPNG bits s).ret = 0) :
    ((h.alloc_bitmap_info = false ∨ h.alloc_bitmap_data = false) →
      (GetPictureEx bits h s).status = .SPI_NO_MEMORY ∧
      written (GetPictureEx bits h s).trace = [] ∧
      (GetPictureEx bits h s).bmiHeader = none ∧
      (GetPictureEx bits h s).pixels = none ∧
      held (GetPictureEx bits h s).trace = []) ∧
    (h.alloc_bitmap_info = true → h.alloc_bitmap_data = true →
      (h.lock_bitmap_info = false ∨ h.lock_bitmap_data = false) →
      (GetPictureEx bits h s).status = .SPI_MEMORY_ERROR ∧
      written (GetPictureEx bits h s).trace = [] ∧
      (GetPictureEx bits h s).bmiHeader = none ∧
      (GetPictureEx bits h s).pixels = none ∧
      held (GetPictureEx bits h s).trace = []) := by
  obtain ⟨requests, -, hs⟩ := getBMPFromPNG_success bits s hdec
  unfold GetPictureEx
  simp only [hgo, hs, Bool.false_eq_true, if_false, ne_eq, not_true_eq_false]
  refine ⟨fun ha => ?_, fun hi hd hl => ?_⟩
  · rcases ha with ha | ha
    · cases hd : h.alloc_bitmap_data <;>
        simp [ha, hd, host_allocs, written, held]
    · cases hi : h.alloc_bitmap_info <;>
        simp [ha, hi, host_allocs, written, held]
  · rcases hl with hl | hl
    · cases hl2 : h.lock_bitmap_data <;>
        simp [hi, hd, hl, hl2, host_allocs, host_locks, written, held]
    · cases hl2 : h.lock_bitmap_info <;>
        simp [hi, hd, hl, hl2, host_allocs, host_locks, written, held]

/-- Witness for C8: the 2x2 image with a host whose pixel-data allocation
fails. -/
theorem GetPictureEx_no_partial_output_witness :
    progress_abort host_no_data_block 0 = false ∧ (getBMPFromPNG 64 rgb_2x2).ret = 0 ∧
    (GetPictureEx 64 host_no_data_block rgb_2x2).status = .SPI_NO_MEMORY ∧
    written (GetPictureEx 64 host_no_data_block rgb_2x2).trace = [] ∧
    (GetPictureEx 64 host_no_data_block rgb_2x2).bmiHeader = none ∧
    (GetPictureEx 64 host_no_data_block rgb_2x2).pixels = none ∧
    held (GetPictureEx 64 host_no_data_block rgb_2x2).trace = [] :=
  ⟨rfl, by decide,
    (GetPictureEx_no_partial_output 64 host_no_data_block rgb_2x2 rfl (by decide)).1
      (Or.inr rfl)⟩

/-- The exit of `GetPictureEx` when the decode, both allocations and both
locks succeed: the pixel-data block is requested with `width*height*4` bytes
(when the container size fits `bfSize`), the info block gets the header of
lines 247-257 (with `biSizeImage = 0`), both blocks stay with the host, the
raster is freed, and the status is decided by the second progress check. -/
theorem GetPictureEx_all_right (bits : Nat) (h : Host) (s : Session) (hbits : 32 ≤ bits)
    (hgo : progress_abort h 0 = false) (hdec : (getBMPFromPNG bits s).ret = 0)
    (hai : h.alloc_bitmap_info = true) (had : h.alloc_bitmap_data = true)
    (hli : h.lock_bitmap_info = true) (hld : h.lock_bitmap_data = true)
    (hfit : 54 + s.width * s.height * 4 < 2 ^ 32) :
    (GetPictureEx bits h s).status =
      (if progress_abort h 1 then SPI.SPI_ABORT else SPI.SPI_ALL_RIGHT) ∧
    (GetPictureEx bits h s).trace =
      [.LocalAlloc .bitmap_info 44, .LocalAlloc .bitmap_data (s.width * s.height * 4),
        .LocalLock .bitmap_info, .LocalLock .bitmap_data, .write .bitmap_info,
        .write .bitmap_data, .LocalUnlock .bitmap_info, .LocalUnlock .bitmap_data,
        .free_data_u8] ∧
    held (GetPictureEx bits h s).trace = [.bitmap_info, .bitmap_data] ∧
    (GetPictureEx bits h s).bmiHeader = some
      { biSize := 40, biWidth := int32 s.width, biHeight := int32 s.height, biPlanes := 1,
        biBitCount := 32, biCompression := 0, biSizeImage := 0, biXPelsPerMeter := 0,
        biYPelsPerMeter := 0, biClrUsed := 0, biClrImportant := 0 } := by
  obtain ⟨requests, -, hs⟩ := getBMPFromPNG_success bits s hdec
  have hb : DWORD (((DWORD (size_t bits ((sizeof_BITMAPFILEHEADER : Int) +
      sizeof_BITMAPINFOHEADER + raster_bytes bits (int32 (int32 s.width * 4))
        (int32 s.height))) : Nat) : Int) -
      ((DWORD (size_t bits ((sizeof_BITMAPFILEHEADER : Int) + sizeof_BITMAPINFOHEADER)) : Nat) :
        Int)) = s.width * s.height * 4 := by
    rw [bfSize_eq bits hbits, bfOffBits_eq bits hbits, Nat.mod_eq_of_lt hfit]
    generalize s.width * s.height * 4 = p at hfit
    unfold DWORD
    norm_num at hfit ⊢
    omega
  unfold GetPictureEx
  simp only [hgo, hs, Bool.false_eq_true, if_false, ne_eq, not_true_eq_false, hai, had, hli, hld,
    Bool.not_true, Bool.or_self, host_allocs, host_locks, if_true, hb]
  refine ⟨trivial, ?_, ?_, rfl⟩
  · simp [sizeof_BITMAPINFO]
  · simp [held]

/-- The raster on the failure exits of `GetPictureEx`: when an allocation or
a lock fails after a successful decode, the call returns without
`free(data_u8)`. -/
theorem GetPictureEx_failure_keeps_raster (bits : Nat) (h : Host) (s : Session)
    (hgo : progress_abort h 0 = false) (hdec : (getBMPFromPNG bits s).ret = 0)
    (hfail : h.alloc_bitmap_info = false ∨ h.alloc_bitmap_data = false ∨
      h.lock_bitmap_info = false ∨ h.lock_bitmap_data = false) :
    HostEvent.free_data_u8 ∉ (GetPictureEx bits h s).trace := by
  obtain ⟨requests, -, hs⟩ := getBMPFromPNG_success bits s hdec
  unfold GetPictureEx
  simp only [hgo, hs, Bool.false_eq_true, if_false, ne_eq, not_true_eq_false]
  cases hai : h.alloc_bitmap_info <;> cases had : h.alloc_bitmap_data <;>
    cases hli : h.lock_bitmap_info <;> cases hld : h.lock_bitmap_data <;>
    simp [hai, had, hli, hld, host_allocs, host_locks] at hfail ⊢

end Ifpng
